import Mathlib

/-!
# Kalpana front end: clock, audio visualizer, matrix rain, voice controller

A shallow embedding of `frontend/js/ui.js` and `frontend/js/voice.js`.

* JavaScript numbers that only ever hold small integers (`drops[i]`, canvas
  sizes) are natural numbers.  The other numbers are IEEE 754 doubles, kept
  as the rationals they denote; a product or sum of doubles is the exact
  result rounded by `roundDouble` (to nearest, ties to even).
* `Math.random()` is a stream `Nat → Rand` of doubles in `[0, 1)` read through
  a cursor, so that any sequence of draws can be supplied.
* DOM effects are recorded in explicit state: the class list of `#arc-core`,
  the browser console, the message log written by `log(...)`, and the list of
  `fetch` requests that have not been answered yet.  The page is taken to
  contain the element `#arc-core`; the element `#clock` may be absent.
* An `async` function is split at its first `await`: the part before it runs
  inside the caller, the rest runs as a separate event when the awaited
  request ends, so other events can come in between.
-/

namespace Kalpana

/-! ## ui.js -/

/-- The integer nearest to `q`, the even one of the two when `q` lies halfway. -/
def roundHalfEven (q : ℚ) : ℤ :=
  let f := Int.floor q
  if q - f < 1 / 2 then f
  else if 1 / 2 < q - f then f + 1
  else if f % 2 = 0 then f else f + 1

/-- The binary exponent of the double nearest to `x`: `floor (log2 |x|)`, and
`-1022` throughout the subnormal range. -/
def binade (x : ℚ) : ℤ := max (Int.log 2 |x|) (-1022)

/-- The distance between neighbouring doubles around `x` (53 significant bits). -/
def ulp (x : ℚ) : ℚ := 2 ^ (binade x - 52)

/-- The double that an arithmetic operation with exact result `x` returns:
`x` rounded to the nearest double, ties to even (for `|x|` below `2 ^ 1024`). -/
def roundDouble (x : ℚ) : ℚ := (roundHalfEven (x / ulp x) : ℚ) * ulp x

/-- One value returned by `Math.random()`: a double in `[0, 1)`, that is
`mantissa / 2 ^ exponent` with at most 53 significant bits and an exponent
within the range of doubles. -/
structure Rand where
  mantissa : Nat
  exponent : Nat
  mantissa_lt : mantissa < 2 ^ 53
  exponent_le : exponent ≤ 1074
  lt_one : mantissa < 2 ^ exponent

/-- The number a draw denotes. -/
def Rand.val (r : Rand) : ℚ := (r.mantissa : ℚ) / 2 ^ r.exponent

/-- The constant `fontSize` of `initMatrixBackground` (ui.js line 59). -/
def fontSize : Nat := 14

/-- The string constant `katakana` (ui.js line 56). -/
def katakana : String :=
  "アァカサタナハマヤャラワガザダバパイィキシチニヒミリヰギジヂビピウゥクスツヌフムユュルグズブヅプエェケセテネヘメレヱゲゼデベペオォコソトノホモヨョロヲゴゾドボポ0123456789ABCDEFGHIJKLMNOPQRSTUVWXYZ"

/-- The array `characters = katakana.split('')` (ui.js line 57). -/
def characters : List Char := katakana.toList

/-- The value `columns = canvas.width / fontSize` (ui.js line 60): a plain
division, not rounded. -/
def columns (width : Nat) : ℚ := (width : ℚ) / (fontSize : ℚ)

/-- The loop `for (let i = 0; i < columns; i++) drops[i] = 1` (ui.js lines
63-65), entered at index `i` with the array built so far.  At every iteration
`i` equals `drops.length`, so the assignment appends. -/
def fillDrops (width : Nat) (i : Nat) (drops : List Nat) : List Nat :=
  if h : (i : ℚ) < columns width then fillDrops width (i + 1) (drops ++ [1]) else drops
termination_by width - i
decreasing_by
  have h14 : (0 : ℚ) < 14 := by norm_num
  have hw : (i : ℚ) * 14 < (width : ℚ) := by
    have := (lt_div_iff₀ h14).mp (by simpa [columns, fontSize] using h)
    exact this
  have hw2 : i * 14 < width := by exact_mod_cast hw
  omega

/-- The drop array as `initMatrixBackground` leaves it before the first frame
(ui.js lines 62-65). -/
def initDrops (width : Nat) : List Nat := fillDrops width 0 []

/-- One `ctx.fillText(text, x, y)` call of `draw` (ui.js line 77). -/
structure GlyphCall where
  text : Option Char
  x : Nat
  y : Nat
deriving DecidableEq

/-- What one call of `draw()` leaves behind. -/
structure Frame where
  /-- The array `drops` after the frame. -/
  drops : List Nat
  /-- How many values of `Math.random()` have been consumed. -/
  cursor : Nat
  /-- The `fillText` calls in column order. -/
  glyphs : List GlyphCall
  /-- Per column, whether the assignment `drops[i] = 0` (line 80) was executed. -/
  resets : List Bool

/-- The index `Math.floor(Math.random() * characters.length)` (ui.js line 76). -/
def glyphIndex (r : Rand) : Nat :=
  (Int.floor (roundDouble (r.val * (characters.length : ℚ)))).toNat

/-- The double that the literal `0.975` denotes (ui.js line 79); it lies just
below 975/1000. -/
def resetThreshold : ℚ := 8782019273372467 / 9007199254740992

/-- The body of the `for` loop of `draw` (ui.js lines 75-83), run over the
columns from index `i` on.  The second `Math.random()` is only evaluated when
`drops[i] * fontSize > canvas.height` holds (short-circuit `&&`). -/
def drawColumns (height : Nat) (rng : Nat → Rand) : Nat → Nat → List Nat → Frame
  | _, cursor, [] => { drops := [], cursor := cursor, glyphs := [], resets := [] }
  | i, cursor, d :: rest =>
    let text := characters[glyphIndex (rng cursor)]?
    let call : GlyphCall := { text := text, x := i * fontSize, y := d * fontSize }
    let past : Bool := decide (d * fontSize > height)
    let reset : Bool := past && decide ((rng (cursor + 1)).val > resetThreshold)
    let cursor2 := if past then cursor + 2 else cursor + 1
    let d0 := if reset then 0 else d
    let tail := drawColumns height rng (i + 1) cursor2 rest
    { drops := (d0 + 1) :: tail.drops
      cursor := tail.cursor
      glyphs := call :: tail.glyphs
      resets := reset :: tail.resets }

/-- One call of `draw()` (ui.js lines 67-84) on the drop array `drops`, with the
canvas `height` pixels high and `Math.random()` read from position `cursor`. -/
def draw (height : Nat) (rng : Nat → Rand) (cursor : Nat) (drops : List Nat) : Frame :=
  drawColumns height rng 0 cursor drops

/-- The value of `bar.style.height`. -/
inductive CssHeight where
  | px (n : Int)
  | percent (n : Int)
deriving DecidableEq

/-- A `.wave-bar` element: its inline height and, once assigned, its opacity. -/
structure Bar where
  height : CssHeight
  opacity : Option ℚ
deriving DecidableEq

/-- The bar as created by `initAudioVisualizer` (ui.js lines 23-25). -/
def newBar : Bar := { height := CssHeight.px 10, opacity := none }

/-- The number `Math.floor(Math.random() * 90) + 10` (ui.js line 34): the
product is rounded to a double before the floor; adding 10 to an integer below
90 is exact. -/
def barHeight (r : Rand) : Int := Int.floor (roundDouble (r.val * 90)) + 10

/-- The number `Math.random() * 0.5 + 0.5` (ui.js line 38): the product and the
sum are each rounded to a double. -/
def barOpacity (r : Rand) : ℚ := roundDouble (roundDouble (r.val * (1 / 2)) + 1 / 2)

/-- The callback of `bars.forEach` (ui.js lines 32-40) applied to one bar with
its two draws. -/
def animateBar (r1 r2 : Rand) (_bar : Bar) : Bar :=
  { height := CssHeight.percent (barHeight r1), opacity := some (barOpacity r2) }

/-- The `forEach` of one visualizer tick over the bars, reading `Math.random()`
from position `cursor`; returns the bars and the new cursor. -/
def animateBars (rng : Nat → Rand) : Nat → List Bar → List Bar × Nat
  | cursor, [] => ([], cursor)
  | cursor, bar :: rest =>
    let out := animateBars rng (cursor + 2) rest
    (animateBar (rng cursor) (rng (cursor + 1)) bar :: out.1, out.2)

/-- The interval callback of `initAudioVisualizer` (ui.js lines 30-41) run `n`
times in a row. -/
def visualizerTicks (rng : Nat → Rand) : Nat → Nat → List Bar → List Bar × Nat
  | 0, cursor, bars => (bars, cursor)
  | n + 1, cursor, bars =>
    let out := animateBars rng cursor bars
    visualizerTicks rng n out.2 out.1

/-- Errors a handler can throw. -/
inductive JsError where
  | typeError
  | invalidStateError
deriving DecidableEq, Repr

/-- The interval callback of `initClock` (ui.js lines 11-14).  `clockEl` is
what `document.getElementById('clock')` returned (`none` for `null`), given as
the element's `textContent`; `timeText` is the value of
`now.toLocaleTimeString('en-US', { hour12: false })`.  Assigning a property of
`null` throws a `TypeError`. -/
def clockTick (clockEl : Option String) (timeText : String) : Except JsError (Option String) :=
  match clockEl with
  | none => Except.error JsError.typeError
  | some _ => Except.ok (some timeText)

/-! ## voice.js -/

/-- The method of `console` that was called. -/
inductive Level where
  | log
  | warn
  | error
deriving DecidableEq, Repr

/-- One call of `console.log` / `console.error`: the text and, for the
two-argument calls, the second argument. -/
structure ConsoleEntry where
  level : Level
  text : String
  detail : Option String
deriving DecidableEq, Repr

/-- Where the recognizer object stands in the Web Speech life cycle:
`inactive` before `start()` and after the `end` event, `starting` between a
successful `start()` and the `start` event, `running` after the `start` event. -/
inductive Phase where
  | inactive
  | starting
  | running
deriving DecidableEq, Repr

/-- The object built by `new SpeechRecognition()` and configured at voice.js
lines 14-17, with the platform's own state (`phase`, `stopRequested`). -/
structure Recognizer where
  continuous : Bool
  interimResults : Bool
  lang : String
  phase : Phase
  stopRequested : Bool
deriving DecidableEq, Repr

/-- The body `JSON.stringify({ transcript: transcript })` of a request to
`POST /api/voice/process` (voice.js lines 99-103), kept as the object. -/
structure VoiceRequest where
  transcript : String
deriving DecidableEq, Repr

/-- How a request to the endpoint ends: the awaited `fetch` or
`response.json()` rejects with an error of the given name (or reading
`data.status` throws), or the response parses to an object with these
properties (`none` for a property that is `undefined`). -/
inductive Reply where
  | failure (error : String)
  | data (status : String) (response : Option String) (message : Option String)
deriving DecidableEq, Repr

/-- The globals of voice.js together with the parts of the page and platform
they act on. -/
structure Session where
  /-- Whether `window.SpeechRecognition` is defined. -/
  speechRecognition : Bool
  /-- Whether `window.webkitSpeechRecognition` is defined. -/
  webkitSpeechRecognition : Bool
  /-- The global `recognition` (`none` for `null`). -/
  recognition : Option Recognizer
  /-- The global `isListening`. -/
  isListening : Bool
  /-- The `classList` of the element `#arc-core`. -/
  coreClasses : List String
  /-- The browser console. -/
  console : List ConsoleEntry
  /-- The message log written by `log(...)`. -/
  messages : List String
  /-- The `fetch` requests that are still awaited. -/
  pending : List VoiceRequest
deriving DecidableEq, Repr

/-- `classList.add(token)`: the token is appended unless already there. -/
def classAdd (classes : List String) (token : String) : List String :=
  if token ∈ classes then classes else classes ++ [token]

/-- `classList.remove(...tokens)`. -/
def classRemove (classes : List String) (tokens : List String) : List String :=
  classes.filter (fun c => !(tokens.contains c))

/-- A value interpolated into a template literal. -/
def jsString : Option String → String
  | none => "undefined"
  | some s => s

/-- Modelled from the spec: `log(html)`, defined outside voice.js, appends one
entry to the visible message log. -/
def log (s : Session) (html : String) : Session :=
  { s with messages := s.messages ++ [html] }

/-- A `console.log(text)` call. -/
def consoleLog (s : Session) (text : String) : Session :=
  { s with console := s.console ++ [{ level := Level.log, text := text, detail := none }] }

/-- A `console.error(text)` or `console.error(text, detail)` call. -/
def consoleError (s : Session) (text : String) (detail : Option String) : Session :=
  { s with console := s.console ++ [{ level := Level.error, text := text, detail := detail }] }

/-- The values of `event.error` that the Web Speech API defines for a
recognition error event (`SpeechRecognitionErrorCode`). -/
inductive SpeechRecognitionErrorCode where
  | noSpeech
  | aborted
  | audioCapture
  | network
  | notAllowed
  | serviceNotAllowed
  | badGrammar
  | languageNotSupported
  | phrasesNotSupported
deriving DecidableEq, Repr

/-- The string an error code is in JavaScript. -/
def SpeechRecognitionErrorCode.text : SpeechRecognitionErrorCode → String
  | noSpeech => "no-speech"
  | aborted => "aborted"
  | audioCapture => "audio-capture"
  | network => "network"
  | notAllowed => "not-allowed"
  | serviceNotAllowed => "service-not-allowed"
  | badGrammar => "bad-grammar"
  | languageNotSupported => "language-not-supported"
  | phrasesNotSupported => "phrases-not-supported"

/-- The console text of voice.js line 10. -/
def unsupportedText : String := "Speech Recognition not supported in this browser"

/-- The label that opens every error entry of the message log. -/
def errorLabel : String := "<b style=\"color: #ff3300\">[ERROR]:</b> "

/-- The label of the answer entry (voice.js line 108). -/
def kalpanaLabel : String := "<b style=\"color: var(--cyber-blue)\">[KALPANA]:</b> "

/-- The text logged for the error code `not-allowed` (voice.js line 42). -/
def deniedText : String := "Microphone access denied. Please grant permission."

/-- The message-log entry written by `recognition.onerror` (voice.js lines
41-45) for the error code `code`. -/
def errorEntry (code : String) : String :=
  if code = "not-allowed" then errorLabel ++ deniedText else errorLabel ++ code

/-- `stopListening()` (voice.js lines 84-88). -/
def stopListening (s : Session) : Session :=
  { s with isListening := false
           coreClasses := classRemove s.coreClasses ["listening", "processing"] }

/-- `initVoiceRecognition()` (voice.js lines 6-54).  The four handlers it
installs are `onstart`, `onresult`, `onerror` and `onend` below. -/
def initVoiceRecognition (s : Session) : Session :=
  if !(s.speechRecognition || s.webkitSpeechRecognition) then
    consoleError s unsupportedText none
  else
    let r : Recognizer :=
      { continuous := false, interimResults := false, lang := "en-US"
        phase := Phase.inactive, stopRequested := false }
    { s with recognition := some r }

/-- `recognition.start()`: a `TypeError` on `null`, an `InvalidStateError` on
an object already started, otherwise the object starts. -/
def recognitionStart : Option Recognizer → Except JsError Recognizer
  | none => Except.error JsError.typeError
  | some r =>
    if r.phase = Phase.inactive then
      Except.ok { r with phase := Phase.starting, stopRequested := false }
    else Except.error JsError.invalidStateError

/-- `recognition.stop()`: a `TypeError` on `null`, otherwise a request to the
platform to stop, which only takes effect through later events. -/
def recognitionStop : Option Recognizer → Except JsError Recognizer
  | none => Except.error JsError.typeError
  | some r => Except.ok { r with stopRequested := r.phase != Phase.inactive }

/-- The name of an error as the console shows it. -/
def JsError.name : JsError → String
  | JsError.typeError => "TypeError"
  | JsError.invalidStateError => "InvalidStateError"

/-- `toggleVoiceInput()` (voice.js lines 67-82): the session afterwards and the
error thrown to the caller, if any. -/
def toggleVoiceInput (s : Session) : Session × Option JsError :=
  let s1 := if s.recognition.isNone then initVoiceRecognition s else s
  if s1.isListening then
    match recognitionStop s1.recognition with
    | Except.ok r => ({ s1 with recognition := some r }, none)
    | Except.error e => (s1, some e)
  else
    match recognitionStart s1.recognition with
    | Except.ok r => ({ s1 with recognition := some r }, none)
    | Except.error e =>
      (log (consoleError s1 "Failed to start recognition:" (some e.name))
        (errorLabel ++ "Failed to start microphone"), none)

/-- The handler `recognition.onstart` (voice.js lines 19-25). -/
def onstart (s : Session) : Session :=
  let s1 := consoleLog s "Voice recognition started"
  let s2 := { s1 with isListening := true }
  let s3 := { s2 with coreClasses := classAdd s2.coreClasses "listening" }
  log s3 "<b style=\"color: #ff6b35\">[MIC]:</b> Listening..."

/-- `processVoiceInput(transcript)` up to its first `await` (voice.js lines
90-103): the part that runs inside the caller. -/
def processVoiceInput (s : Session) (transcript : String) : Session :=
  let s1 := { s with coreClasses := classRemove s.coreClasses ["listening"] }
  let s2 := { s1 with coreClasses := classAdd s1.coreClasses "processing" }
  let s3 := log s2 "<b style=\"color: #00d9ff\">[KALPANA]:</b> Processing..."
  { s3 with pending := s3.pending ++ [{ transcript := transcript }] }

/-- `Math.round(x)` of a double `x`: the nearest integer, halfway cases upwards. -/
def mathRound (x : ℚ) : Int := Int.floor (x + 1 / 2)

/-- The handler `recognition.onresult` (voice.js lines 27-36) for an event
whose first alternative carries `transcript` and `confidence`. -/
def onresult (s : Session) (transcript : String) (confidence : ℚ) : Session :=
  let s1 := consoleLog s
    ("Transcript: " ++ transcript ++ " (" ++
      toString (mathRound (roundDouble (confidence * 100))) ++ "% confidence)")
  let s2 := log s1 ("<b style=\"color: #ffaa00\">[YOU]:</b> " ++ transcript)
  processVoiceInput s2 transcript

/-- The handler `recognition.onerror` (voice.js lines 38-48) for an event whose
`error` is `code`. -/
def onerror (s : Session) (code : String) : Session :=
  let s1 := consoleError s "Speech recognition error:" (some code)
  let s2 := log s1 (errorEntry code)
  stopListening s2

/-- The handler `recognition.onend` (voice.js lines 50-53). -/
def onend (s : Session) : Session :=
  stopListening (consoleLog s "Voice recognition ended")

/-- The rest of `processVoiceInput` (voice.js lines 105-117), run when the
awaited request ends with `reply`. -/
def processVoiceInputSettle (s : Session) (reply : Reply) : Session :=
  let s1 :=
    match reply with
    | Reply.data status response message =>
      if status = "success" then log s (kalpanaLabel ++ jsString response)
      else log s (errorLabel ++ jsString message)
    | Reply.failure error =>
      log (consoleError s "Voice processing error:" (some error))
        (errorLabel ++ "Failed to process voice input")
  stopListening s1

/-- What can happen to the session: a call of `toggleVoiceInput`, one of the
four recognizer events, or the end of the `k`-th awaited request. -/
inductive Event where
  | toggle
  | recStart
  | recResult (transcript : String) (confidence : ℚ)
  | recError (code : String)
  | recEnd
  | response (k : Nat) (reply : Reply)
deriving DecidableEq

/-- The phase of the recognizer object, `inactive` when there is none. -/
def Session.phase (s : Session) : Phase :=
  match s.recognition with
  | none => Phase.inactive
  | some r => r.phase

/-- Sets the platform phase of the recognizer object. -/
def Session.setPhase (s : Session) (p : Phase) : Session :=
  let r := s.recognition.map
    (fun r => { r with phase := p, stopRequested := r.stopRequested && p != Phase.inactive })
  { s with recognition := r }

/-- The effect of one event.  Recognizer events reach a handler only when the
recognizer object exists; a response is handled only for a request that is
awaited, which then leaves the pending list. -/
def step (s : Session) : Event → Session
  | Event.toggle => (toggleVoiceInput s).1
  | Event.recStart =>
    if s.recognition.isSome then onstart (s.setPhase Phase.running) else s
  | Event.recResult transcript confidence =>
    if s.recognition.isSome then onresult s transcript confidence else s
  | Event.recError code =>
    if s.recognition.isSome then onerror s code else s
  | Event.recEnd =>
    if s.recognition.isSome then onend (s.setPhase Phase.inactive) else s
  | Event.response k reply =>
    if k < s.pending.length then
      processVoiceInputSettle { s with pending := s.pending.eraseIdx k } reply
    else s

/-- The order in which the platform delivers events: `start` once after a
successful `start()`, results only after `start` and before `end`, `error` and
`end` only for a started object, a response only for an awaited request. -/
def enabled (s : Session) : Event → Bool
  | Event.toggle => true
  | Event.recStart => s.phase = Phase.starting
  | Event.recResult _ _ => s.phase = Phase.running
  | Event.recError _ => s.phase != Phase.inactive
  | Event.recEnd => s.phase != Phase.inactive
  | Event.response k _ => k < s.pending.length

/-- The session after a sequence of events, each applied in turn. -/
def run (s : Session) : List Event → Session
  | [] => s
  | ev :: rest => run (step s ev) rest

/-- Whether every event of the sequence is delivered in platform order. -/
def admissible (s : Session) : List Event → Bool
  | [] => true
  | ev :: rest => enabled s ev && admissible (step s ev) rest

/-- The session when the script has been loaded: no recognizer object, not
listening, nothing logged or awaited. -/
def initialSession (speechRecognition webkitSpeechRecognition : Bool)
    (coreClasses : List String) : Session :=
  { speechRecognition := speechRecognition
    webkitSpeechRecognition := webkitSpeechRecognition
    recognition := none
    isListening := false
    coreClasses := coreClasses
    console := []
    messages := []
    pending := [] }

/-- The indicator carries the flag `listening`. -/
def Session.listeningFlag (s : Session) : Bool := s.coreClasses.contains "listening"

/-- The indicator carries the flag `processing`. -/
def Session.processingFlag (s : Session) : Bool := s.coreClasses.contains "processing"

/-- The three states of the voice session, read off the indicator. -/
inductive VoiceState where
  | idle
  | listening
  | processing
deriving DecidableEq, Repr

/-- The state the indicator shows, when it shows exactly one. -/
def Session.state (s : Session) : Option VoiceState :=
  match s.listeningFlag, s.processingFlag with
  | false, false => some VoiceState.idle
  | true, false => some VoiceState.listening
  | false, true => some VoiceState.processing
  | true, true => none

/-- The states reachable from `s0` by events delivered in platform order. -/
inductive Reachable (s0 : Session) : Session → Prop where
  | start : Reachable s0 s0
  | next (s : Session) (ev : Event) : Reachable s0 s → enabled s ev = true →
      Reachable s0 (step s ev)

/-- A console entry that reports the missing speech-recognition capability. -/
def isCapabilityUnavailable (e : ConsoleEntry) : Bool :=
  e.level = Level.error && e.text = unsupportedText

/-- The session is in the listening state: the recognizer runs, `isListening`
is set and the indicator shows `listening` only. -/
def Session.Listening (s : Session) : Prop :=
  s.phase = Phase.running ∧ s.isListening = true ∧ s.state = some VoiceState.listening

/-- The session is idle as the script sees it: `isListening` is false and the
indicator carries neither flag. -/
def Session.Idle (s : Session) : Prop :=
  s.isListening = false ∧ s.listeningFlag = false ∧ s.processingFlag = false

instance (s : Session) : Decidable s.Listening := by
  unfold Session.Listening; infer_instance

instance (s : Session) : Decidable s.Idle := by
  unfold Session.Idle; infer_instance

/-- The session is processing with a request in flight: the recognizer that
delivered the result has not ended, the indicator shows `processing` only and
at least one request is awaited.  `isListening` is set unless the answer to an
earlier request has cleared it in the meantime. -/
def Session.Processing (s : Session) : Prop :=
  s.phase = Phase.running ∧ s.state = some VoiceState.processing ∧ s.pending ≠ []

instance (s : Session) : Decidable s.Processing := by
  unfold Session.Processing; infer_instance

/-- The invariant behind the exclusivity of the two flags: while the indicator
carries `processing`, the recognizer is running and `listening` is absent. -/
def Session.ProcessingSound (s : Session) : Prop :=
  s.processingFlag = true → s.phase = Phase.running ∧ s.listeningFlag = false

/-! ## Concrete inputs -/

/-- A page in a browser that only offers `webkitSpeechRecognition`. -/
def webkitPage : Session := initialSession false true ["core"]

/-- A page in a browser without speech recognition. -/
def barePage : Session := initialSession false false ["core"]

/-- The double that the confidence `0.9` denotes. -/
def confidence90 : ℚ := 8106479329266893 / 9007199254740992

/-- The session after a toggle and the recognizer's `start` event. -/
def listeningSession : Session := run webkitPage [Event.toggle, Event.recStart]

/-- The session after the result event "turn on lights" from `listeningSession`. -/
def processingSession : Session :=
  step listeningSession (Event.recResult "turn on lights" confidence90)

/-- A second recognition session is running when the answer to the request of
the first one arrives. -/
def staleAnswerEvents : List Event :=
  [Event.toggle, Event.recStart, Event.recResult "first" confidence90, Event.recEnd,
   Event.toggle, Event.recStart, Event.response 0 (Reply.data "success" (some "done") none)]

/-- The session processing the result of the second recognition session, after
the answer to the first request has cleared `isListening`. -/
def staleProcessingSession : Session :=
  step (run webkitPage staleAnswerEvents) (Event.recResult "second" confidence90)

/-- A stream of draws that always returns 63/64. -/
def highDraws : Nat → Rand := fun _ =>
  { mantissa := 63, exponent := 6, mantissa_lt := by norm_num,
    exponent_le := by norm_num, lt_one := by norm_num }

/-- The largest double below 1, `1 - 2 ^ (-53)`. -/
def topDraw : Rand :=
  { mantissa := 2 ^ 53 - 1, exponent := 53, mantissa_lt := by norm_num,
    exponent_le := by norm_num, lt_one := by norm_num }

/-- The draw `850679929614427 / 2 ^ 52`, whose product with 90 lies within half
a unit in the last place below 17. -/
def roundingDraw : Rand :=
  { mantissa := 850679929614427, exponent := 52, mantissa_lt := by norm_num,
    exponent_le := by norm_num, lt_one := by norm_num }

/-! ## Matrix rain -/

theorem columns_lt_iff (width i : Nat) : (i : ℚ) < columns width ↔ i * 14 < width := by
  have h14 : (0 : ℚ) < 14 := by norm_num
  unfold columns fontSize
  rw [Nat.cast_ofNat, lt_div_iff₀ h14]
  exact_mod_cast Iff.rfl

theorem fillDrops_eq (width : Nat) :
    ∀ (n i : Nat) (drops : List Nat), (width + 13) / 14 - i = n →
      fillDrops width i drops = drops ++ List.replicate n 1 := by
  intro n
  induction n with
  | zero =>
    intro i drops h
    rw [fillDrops]
    have hi : ¬ (i * 14 < width) := by omega
    simp [columns_lt_iff, hi]
  | succ n ih =>
    intro i drops h
    rw [fillDrops]
    have hi : i * 14 < width := by omega
    have hn : (width + 13) / 14 - (i + 1) = n := by omega
    simp [columns_lt_iff, hi, ih (i + 1) (drops ++ [1]) hn, List.replicate_succ]

theorem initDrops_eq (width : Nat) :
    initDrops width = List.replicate ((width + 13) / 14) 1 := by
  unfold initDrops
  rw [fillDrops_eq width ((width + 13) / 14) 0 [] (by omega)]
  simp

theorem drawColumns_lengths (height : Nat) (rng : Nat → Rand) :
    ∀ (drops : List Nat) (i cursor : Nat),
      (drawColumns height rng i cursor drops).drops.length = drops.length ∧
      (drawColumns height rng i cursor drops).glyphs.length = drops.length ∧
      (drawColumns height rng i cursor drops).resets.length = drops.length := by
  intro drops
  induction drops with
  | nil => intro i cursor; simp [drawColumns]
  | cons d rest ih =>
    intro i cursor
    simp only [drawColumns, List.length_cons]
    have h := ih (i + 1) (if decide (d * fontSize > height) = true then cursor + 2 else cursor + 1)
    omega

theorem drawColumns_column (height : Nat) (rng : Nat → Rand) :
    ∀ (drops : List Nat) (i cursor k d : Nat), drops[k]? = some d →
      ∃ reset : Bool,
        (drawColumns height rng i cursor drops).resets[k]? = some reset ∧
        (drawColumns height rng i cursor drops).drops[k]? = some ((if reset then 0 else d) + 1) ∧
        (reset = true → d * fontSize > height) := by
  intro drops
  induction drops with
  | nil => intro i cursor k d h; simp at h
  | cons d0 rest ih =>
    intro i cursor k d h
    cases k with
    | zero =>
      simp only [List.getElem?_cons_zero, Option.some.injEq] at h
      subst h
      refine ⟨decide (d0 * fontSize > height) &&
        decide ((rng (cursor + 1)).val > resetThreshold), ?_, ?_, ?_⟩
      · simp [drawColumns]
      · simp [drawColumns]
      · intro hr
        simp only [Bool.and_eq_true, decide_eq_true_eq] at hr
        exact hr.1
    | succ k =>
      simp only [List.getElem?_cons_succ] at h
      obtain ⟨reset, h1, h2, h3⟩ := ih (i + 1)
        (if decide (d0 * fontSize > height) = true then cursor + 2 else cursor + 1) k d h
      exact ⟨reset, by simpa [drawColumns] using h1, by simpa [drawColumns] using h2, h3⟩

/-- C1. One call of `draw()`: the drop array keeps its length, and for every
column `i` holding `d` before the frame, either the frame executed no reset and
the column holds `d + 1` afterwards, or it executed the reset `drops[i] = 0`,
which happens only when `d * fontSize > canvas.height` (with `fontSize = 14`)
and leaves the column at `1` after the increment.  So a column never decreases
within a frame unless it was reset. -/
theorem draw_column_step (height : Nat) (rng : Nat → Rand) (cursor : Nat)
    (drops : List Nat) (i d : Nat) (h : drops[i]? = some d) :
    fontSize = 14 ∧
    (draw height rng cursor drops).drops.length = drops.length ∧
    ∃ (reset : Bool) (d1 : Nat),
      (draw height rng cursor drops).resets[i]? = some reset ∧
      (draw height rng cursor drops).drops[i]? = some d1 ∧
      (reset = false → d1 = d + 1) ∧
      (reset = true → d * 14 > height ∧ d1 = 0 + 1) ∧
      (d ≤ d1 ∨ reset = true) := by
  refine ⟨rfl, (drawColumns_lengths height rng drops 0 cursor).1, ?_⟩
  obtain ⟨reset, h1, h2, h3⟩ := drawColumns_column height rng drops 0 cursor i d h
  refine ⟨reset, (if reset then 0 else d) + 1, h1, h2, ?_, ?_, ?_⟩
  · intro hr; simp [hr]
  · intro hr; exact ⟨by simpa [fontSize] using h3 hr, by simp [hr]⟩
  · cases reset
    · left; simp
    · right; rfl

/-- Witness for C1: a canvas 28 pixels high and the drops `[1, 3]`, second column. -/
theorem draw_column_step_witness :
    [1, 3][1]? = some 3 ∧
    fontSize = 14 ∧
    (draw 28 highDraws 0 [1, 3]).drops.length = [1, 3].length ∧
    ∃ (reset : Bool) (d1 : Nat),
      (draw 28 highDraws 0 [1, 3]).resets[1]? = some reset ∧
      (draw 28 highDraws 0 [1, 3]).drops[1]? = some d1 ∧
      (reset = false → d1 = 3 + 1) ∧
      (reset = true → 3 * 14 > 28 ∧ d1 = 0 + 1) ∧
      (3 ≤ d1 ∨ reset = true) :=
  ⟨rfl, draw_column_step 28 highDraws 0 [1, 3] 1 3 rfl⟩

/-- C9, as the code has it: for every surface width `w` the drop array built at
setup has length `ceil(w / 14)`, written `(w + 13) / 14`, every entry is `1`,
and a frame iterates over exactly that many columns; the length is
`floor(w / 14)` exactly when 14 divides `w`. -/
theorem initDrops_length_ceil (width : Nat) :
    (initDrops width).length = (width + 13) / 14 ∧
    (∀ d ∈ initDrops width, d = 1) ∧
    (∀ (height cursor : Nat) (rng : Nat → Rand),
      (draw height rng cursor (initDrops width)).glyphs.length = (width + 13) / 14) ∧
    ((initDrops width).length = width / 14 ↔ 14 ∣ width) := by
  have hlen : (initDrops width).length = (width + 13) / 14 := by
    rw [initDrops_eq]; simp
  refine ⟨hlen, ?_, ?_, ?_⟩
  · intro d hd
    rw [initDrops_eq] at hd
    exact (List.mem_replicate.mp hd).2
  · intro height cursor rng
    rw [draw, (drawColumns_lengths height rng (initDrops width) 0 cursor).2.1, hlen]
  · rw [hlen]
    constructor
    · intro h; omega
    · intro h; omega

/-- C9 fails as stated: a surface 15 pixels wide gets two columns, while
`floor(15 / 14) = 1`. -/
theorem initDrops_length_not_floor :
    (initDrops 15).length = 2 ∧ 15 / 14 = 1 ∧ (initDrops 15).length ≠ 15 / 14 := by
  have h : initDrops 15 = [1, 1] := by rw [initDrops_eq]; rfl
  rw [h]
  decide

/-! ## Double rounding -/

theorem roundHalfEven_le (q : ℚ) (k : ℤ) (h : q ≤ k) : roundHalfEven q ≤ k := by
  have hf : Int.floor q ≤ k := by
    have := Int.floor_le q
    exact_mod_cast (Int.floor_le q).trans h
  unfold roundHalfEven
  simp only
  by_cases hlt : q - (Int.floor q : ℚ) < 1 / 2
  · rw [if_pos hlt]; exact hf
  · have hne : Int.floor q ≠ k := by
      intro he
      apply hlt
      have : q ≤ (Int.floor q : ℚ) := by rw [he]; exact h
      linarith
    have hf1 : Int.floor q + 1 ≤ k := by omega
    rw [if_neg hlt]
    split
    · exact hf1
    · split
      · exact hf
      · exact hf1

theorem le_roundHalfEven (q : ℚ) (k : ℤ) (h : (k : ℚ) ≤ q) : k ≤ roundHalfEven q := by
  have hf : k ≤ Int.floor q := Int.le_floor.mpr h
  unfold roundHalfEven
  simp only
  split
  · exact hf
  · split
    · omega
    · split
      · exact hf
      · omega

theorem roundHalfEven_lt (q : ℚ) (k : ℤ) (h : q < k - 1 / 2) : roundHalfEven q < k := by
  have hfq := Int.floor_le q
  have hf : Int.floor q < k := by
    have : (Int.floor q : ℚ) < k := by linarith
    exact_mod_cast this
  unfold roundHalfEven
  simp only
  by_cases hlt : q - (Int.floor q : ℚ) < 1 / 2
  · rw [if_pos hlt]; exact hf
  · have hne : Int.floor q + 1 ≠ k := by
      intro he
      apply hlt
      have : (k : ℚ) = Int.floor q + 1 := by rw [← he]; push_cast; ring
      linarith
    have hf1 : Int.floor q + 1 < k := by omega
    rw [if_neg hlt]
    split
    · exact hf1
    · split
      · exact hf
      · exact hf1

theorem ulp_pos (x : ℚ) : 0 < ulp x := by
  unfold ulp
  positivity

theorem binade_le (x : ℚ) (B : ℤ) (hx : 0 < x) (hB : -1022 ≤ B) (hxB : x < 2 ^ (B + 1)) :
    binade x ≤ B := by
  unfold binade
  rw [abs_of_pos hx]
  have h := (Int.lt_zpow_iff_log_lt (b := 2) (by norm_num) hx).mp (by exact_mod_cast hxB)
  exact max_le (by omega) hB

theorem ulp_dvd (x : ℚ) (B : ℤ) (hx : 0 < x) (hB : -1022 ≤ B) (hxB : x < 2 ^ (B + 1)) :
    ∃ n : ℕ, (2 : ℚ) ^ (B - 52) = 2 ^ n * ulp x := by
  have hb := binade_le x B hx hB hxB
  refine ⟨(B - binade x).toNat, ?_⟩
  unfold ulp
  rw [← zpow_natCast, ← zpow_add₀ (by norm_num : (2 : ℚ) ≠ 0)]
  congr 1
  rw [Int.toNat_of_nonneg (by omega)]
  ring


theorem roundDouble_zero : roundDouble 0 = 0 := by
  simp [roundDouble, roundHalfEven]

theorem roundDouble_le (x C : ℚ) (B K : ℤ) (hx : 0 < x) (hB : -1022 ≤ B)
    (hxB : x < 2 ^ (B + 1)) (hC : C = K * 2 ^ (B - 52)) (h : x ≤ C) : roundDouble x ≤ C := by
  obtain ⟨n, hn⟩ := ulp_dvd x B hx hB hxB
  have hu := ulp_pos x
  have hq : x / ulp x ≤ ((K * 2 ^ n : ℤ) : ℚ) := by
    rw [div_le_iff₀ hu]
    push_cast
    calc x ≤ C := h
      _ = K * (2 ^ n * ulp x) := by rw [hC, hn]
      _ = K * 2 ^ n * ulp x := by ring
  have hr := roundHalfEven_le _ _ hq
  unfold roundDouble
  calc (roundHalfEven (x / ulp x) : ℚ) * ulp x
      ≤ ((K * 2 ^ n : ℤ) : ℚ) * ulp x :=
        mul_le_mul_of_nonneg_right (by exact_mod_cast hr) hu.le
    _ = C := by rw [hC, hn]; push_cast; ring

theorem le_roundDouble (x C : ℚ) (B K : ℤ) (hx : 0 < x) (hB : -1022 ≤ B)
    (hxB : x < 2 ^ (B + 1)) (hC : C = K * 2 ^ (B - 52)) (h : C ≤ x) : C ≤ roundDouble x := by
  obtain ⟨n, hn⟩ := ulp_dvd x B hx hB hxB
  have hu := ulp_pos x
  have hq : ((K * 2 ^ n : ℤ) : ℚ) ≤ x / ulp x := by
    rw [le_div_iff₀ hu]
    push_cast
    calc (K : ℚ) * 2 ^ n * ulp x = K * (2 ^ n * ulp x) := by ring
      _ = C := by rw [hC, hn]
      _ ≤ x := h
  have hr := le_roundHalfEven _ _ hq
  unfold roundDouble
  calc C = ((K * 2 ^ n : ℤ) : ℚ) * ulp x := by rw [hC, hn]; push_cast; ring
    _ ≤ (roundHalfEven (x / ulp x) : ℚ) * ulp x :=
        mul_le_mul_of_nonneg_right (by exact_mod_cast hr) hu.le

theorem roundDouble_lt (x C : ℚ) (B K : ℤ) (hx : 0 < x) (hB : -1022 ≤ B)
    (hxB : x < 2 ^ (B + 1)) (hC : C = K * 2 ^ (B - 52))
    (h : x + 2 ^ (B - 52) / 2 < C) : roundDouble x < C := by
  obtain ⟨n, hn⟩ := ulp_dvd x B hx hB hxB
  have hu := ulp_pos x
  have h2n : (1 : ℚ) ≤ 2 ^ n := one_le_pow₀ (by norm_num)
  have hq : x / ulp x < ((K * 2 ^ n : ℤ) : ℚ) - 1 / 2 := by
    rw [div_lt_iff₀ hu]
    push_cast
    have h1 : x + 2 ^ n * ulp x / 2 < K * (2 ^ n * ulp x) := by
      rw [← hn, ← hC]; exact h
    nlinarith
  have hr := roundHalfEven_lt _ _ hq
  unfold roundDouble
  calc (roundHalfEven (x / ulp x) : ℚ) * ulp x
      < ((K * 2 ^ n : ℤ) : ℚ) * ulp x :=
        mul_lt_mul_of_pos_right (by exact_mod_cast hr) hu
    _ = C := by rw [hC, hn]; push_cast; ring


theorem lt_roundHalfEven (q : ℚ) (k : ℤ) (h : (k : ℚ) + 1 / 2 < q) : k < roundHalfEven q := by
  have hfl := Int.lt_floor_add_one q
  have hf : k ≤ Int.floor q := by
    have : (k : ℚ) < Int.floor q + 1 := by linarith
    have : k < Int.floor q + 1 := by exact_mod_cast this
    omega
  unfold roundHalfEven
  simp only
  by_cases hlt : q - (Int.floor q : ℚ) < 1 / 2
  · rw [if_pos hlt]
    have hne : k ≠ Int.floor q := by
      intro he
      rw [← he] at hlt
      linarith
    omega
  · rw [if_neg hlt]
    by_cases hgt : 1 / 2 < q - (Int.floor q : ℚ)
    · rw [if_pos hgt]; omega
    · rw [if_neg hgt]
      have hne : k ≠ Int.floor q := by
        intro he
        rw [← he] at hgt
        apply hgt; linarith
      split
      · omega
      · omega

theorem roundHalfEven_near (q : ℚ) (k : ℤ) (h1 : (k : ℚ) - 1 / 2 < q) (h2 : q < k + 1 / 2) :
    roundHalfEven q = k := by
  have ha : k - 1 < roundHalfEven q := lt_roundHalfEven q (k - 1) (by push_cast; linarith)
  have hb : roundHalfEven q < k + 1 := roundHalfEven_lt q (k + 1) (by push_cast; linarith)
  omega

theorem roundHalfEven_tie_odd (k : ℤ) (hk : k % 2 = 1) :
    roundHalfEven ((k : ℚ) + 1 / 2) = k + 1 := by
  have hf : Int.floor ((k : ℚ) + 1 / 2) = k := by
    rw [Int.floor_eq_iff]; constructor <;> linarith
  unfold roundHalfEven
  simp only [hf]
  have h1 : ¬ ((k : ℚ) + 1 / 2 - k < 1 / 2) := by intro h; linarith
  have h2 : ¬ (1 / 2 < (k : ℚ) + 1 / 2 - k) := by intro h; linarith
  have h3 : ¬ (k % 2 = 0) := by omega
  rw [if_neg h1, if_neg h2, if_neg h3]

theorem binade_eq (x : ℚ) (e : ℤ) (he : -1022 ≤ e) (h1 : 2 ^ e ≤ x) (h2 : x < 2 ^ (e + 1)) :
    binade x = e := by
  have hx : 0 < x := lt_of_lt_of_le (by positivity) h1
  have ha : e ≤ Int.log 2 x :=
    (Int.zpow_le_iff_le_log (b := 2) (by norm_num) hx).mp (by exact_mod_cast h1)
  have hb : Int.log 2 x < e + 1 :=
    (Int.lt_zpow_iff_log_lt (b := 2) (by norm_num) hx).mp (by exact_mod_cast h2)
  unfold binade
  rw [abs_of_pos hx]
  have : Int.log 2 x = e := by omega
  rw [this]
  exact max_eq_left he

theorem roundDouble_eq (x : ℚ) (e n : ℤ) (he : -1022 ≤ e) (h1 : 2 ^ e ≤ x)
    (h2 : x < 2 ^ (e + 1)) (hn : roundHalfEven (x / 2 ^ (e - 52)) = n) :
    roundDouble x = n * 2 ^ (e - 52) := by
  unfold roundDouble ulp
  rw [binade_eq x e he h1 h2, hn]

theorem topDraw_opacity : barOpacity topDraw = 1 := by
  have hv : topDraw.val = 9007199254740991 / 9007199254740992 := by
    norm_num [Rand.val, topDraw]
  have h1 : roundDouble (topDraw.val * (1 / 2)) = 9007199254740991 / 18014398509481984 := by
    rw [roundDouble_eq _ (-2) 9007199254740991 (by norm_num) (by rw [hv]; norm_num)
      (by rw [hv]; norm_num) ?_]
    · norm_num
    · apply roundHalfEven_near <;> rw [hv] <;> norm_num
  unfold barOpacity
  rw [h1, roundDouble_eq _ (-1) 9007199254740992 (by norm_num) (by norm_num) (by norm_num) ?_]
  · norm_num
  · have h2 := roundHalfEven_tie_odd 9007199254740991 (by norm_num)
    have h3 : (9007199254740991 / 18014398509481984 + 1 / 2 : ℚ) / 2 ^ ((-1 : ℤ) - 52) =
        ((9007199254740991 : ℤ) : ℚ) + 1 / 2 := by norm_num
    rw [h3, h2]; norm_num

theorem roundingDraw_height :
    barHeight roundingDraw = 27 ∧ Int.floor (roundingDraw.val * 90) + 10 = 26 := by
  have hv : roundingDraw.val = 850679929614427 / 4503599627370496 := by
    norm_num [Rand.val, roundingDraw]
  constructor
  · have h1 : roundDouble (roundingDraw.val * 90) = 17 := by
      rw [roundDouble_eq _ 4 4785074604081152 (by norm_num) (by rw [hv]; norm_num)
        (by rw [hv]; norm_num) ?_]
      · norm_num
      · apply roundHalfEven_near <;> rw [hv] <;> norm_num
    unfold barHeight
    rw [h1]
    norm_num
  · have : Int.floor (roundingDraw.val * 90) = 16 := by
      rw [Int.floor_eq_iff, hv]; constructor <;> norm_num
    rw [this]; norm_num

/-! ## Audio visualizer -/

theorem Rand.val_nonneg (r : Rand) : 0 ≤ r.val := by
  unfold Rand.val
  positivity

theorem Rand.val_lt_one (r : Rand) : r.val < 1 := by
  unfold Rand.val
  rw [div_lt_one (by positivity)]
  exact_mod_cast r.lt_one

theorem Rand.val_le_top (r : Rand) : r.val ≤ 1 - 1 / 2 ^ 53 := by
  have hnat : r.mantissa * 2 ^ 53 + 2 ^ r.exponent ≤ 2 ^ 53 * 2 ^ r.exponent := by
    have hm := r.mantissa_lt
    have hl := r.lt_one
    by_cases he : r.exponent ≤ 53
    · have hp : 2 ^ r.exponent ≤ 2 ^ 53 := Nat.pow_le_pow_right (by norm_num) he
      have h1 : (r.mantissa + 1) * 2 ^ 53 ≤ 2 ^ r.exponent * 2 ^ 53 :=
        Nat.mul_le_mul_right _ hl
      nlinarith
    · have hp : 2 ^ 53 ≤ 2 ^ r.exponent := Nat.pow_le_pow_right (by norm_num) (by omega)
      have h1 : (r.mantissa + 1) * 2 ^ r.exponent ≤ 2 ^ 53 * 2 ^ r.exponent :=
        Nat.mul_le_mul_right _ hm
      nlinarith
  have hq : (r.mantissa : ℚ) * 2 ^ 53 + 2 ^ r.exponent ≤ 2 ^ 53 * 2 ^ r.exponent := by
    exact_mod_cast hnat
  unfold Rand.val
  rw [div_le_iff₀ (by positivity)]
  have hpos : (0 : ℚ) < 2 ^ r.exponent := by positivity
  have h53 : (0 : ℚ) < 2 ^ 53 := by positivity
  have : (1 - 1 / 2 ^ 53 : ℚ) * 2 ^ r.exponent =
      (2 ^ 53 * 2 ^ r.exponent - 2 ^ r.exponent) / 2 ^ 53 := by
    field_simp
    ring
  rw [this, le_div_iff₀ h53]
  linarith

theorem roundDouble_product_bounds (r : Rand) :
    0 ≤ roundDouble (r.val * 90) ∧ roundDouble (r.val * 90) < 90 ∧
    (Int.floor (r.val * 90) : ℚ) ≤ roundDouble (r.val * 90) ∧
    roundDouble (r.val * 90) ≤ (Int.floor (r.val * 90) : ℚ) + 1 := by
  have h0 := r.val_nonneg
  have h1 := r.val_le_top
  rcases h0.eq_or_lt with hz | hpos
  · rw [← hz]
    simp [roundDouble_zero]
  · have hx : 0 < r.val * 90 := by positivity
    have hxB : r.val * 90 < 2 ^ ((6 : ℤ) + 1) := by
      have := r.val_lt_one
      norm_num
      linarith
    have hfl := Int.floor_le (r.val * 90)
    have hfl2 := Int.lt_floor_add_one (r.val * 90)
    refine ⟨?_, ?_, ?_, ?_⟩
    · exact le_roundDouble _ 0 6 0 hx (by norm_num) hxB (by norm_num) hx.le
    · refine roundDouble_lt _ 90 6 (90 * 2 ^ 46) hx (by norm_num) hxB (by norm_num) ?_
      norm_num
      norm_num at h1
      linarith
    · refine le_roundDouble _ _ 6 (Int.floor (r.val * 90) * 2 ^ 46) hx (by norm_num) hxB ?_ hfl
      push_cast
      norm_num
      ring
    · refine roundDouble_le _ _ 6 ((Int.floor (r.val * 90) + 1) * 2 ^ 46) hx (by norm_num)
        hxB ?_ hfl2.le
      push_cast
      norm_num
      ring

theorem barHeight_bounds (r : Rand) :
    10 ≤ barHeight r ∧ barHeight r < 100 ∧
    Int.floor (r.val * 90) + 10 ≤ barHeight r ∧ barHeight r ≤ Int.floor (r.val * 90) + 11 := by
  obtain ⟨h0, h1, h2, h3⟩ := roundDouble_product_bounds r
  unfold barHeight
  have ha : 0 ≤ Int.floor (roundDouble (r.val * 90)) := Int.floor_nonneg.mpr h0
  have hb : Int.floor (roundDouble (r.val * 90)) < 90 := by
    rw [Int.floor_lt]; exact_mod_cast h1
  have hc : Int.floor (r.val * 90) ≤ Int.floor (roundDouble (r.val * 90)) :=
    Int.le_floor.mpr h2
  have hd : Int.floor (roundDouble (r.val * 90)) ≤ Int.floor (r.val * 90) + 1 := by
    have : (Int.floor (roundDouble (r.val * 90)) : ℚ) ≤ ((Int.floor (r.val * 90) + 1 : ℤ) : ℚ) := by
      push_cast
      exact (Int.floor_le _).trans h3
    exact_mod_cast this
  omega

theorem barOpacity_bounds (r : Rand) : 1 / 2 ≤ barOpacity r ∧ barOpacity r ≤ 1 := by
  have h0 := r.val_nonneg
  have h1 := r.val_lt_one
  have hinner : 0 ≤ roundDouble (r.val * (1 / 2)) ∧ roundDouble (r.val * (1 / 2)) ≤ 1 / 2 := by
    rcases h0.eq_or_lt with hz | hpos
    · rw [← hz]
      simp [roundDouble_zero]
    · have hx : 0 < r.val * (1 / 2) := by positivity
      have hxB : r.val * (1 / 2) < 2 ^ ((-2 : ℤ) + 1) := by
        norm_num
        linarith
      constructor
      · exact le_roundDouble _ 0 (-2) 0 hx (by norm_num) hxB (by norm_num) hx.le
      · refine roundDouble_le _ _ (-2) (2 ^ 53) hx (by norm_num) hxB (by norm_num) ?_
        linarith
  obtain ⟨hy0, hy1⟩ := hinner
  have hs : 0 < roundDouble (r.val * (1 / 2)) + 1 / 2 := by linarith
  have hsB : roundDouble (r.val * (1 / 2)) + 1 / 2 < 2 ^ ((0 : ℤ) + 1) := by
    norm_num
    linarith
  unfold barOpacity
  constructor
  · refine le_roundDouble _ _ 0 (2 ^ 51) hs (by norm_num) hsB (by norm_num) ?_
    linarith
  · refine roundDouble_le _ _ 0 (2 ^ 52) hs (by norm_num) hsB (by norm_num) ?_
    linarith

theorem animateBars_cursor (rng : Nat → Rand) :
    ∀ (bars : List Bar) (cursor : Nat),
      (animateBars rng cursor bars).2 = cursor + 2 * bars.length := by
  intro bars
  induction bars with
  | nil => intro cursor; simp [animateBars]
  | cons bar rest ih =>
    intro cursor
    simp only [animateBars, List.length_cons, ih]
    omega

theorem animateBars_length (rng : Nat → Rand) :
    ∀ (bars : List Bar) (cursor : Nat), (animateBars rng cursor bars).1.length = bars.length := by
  intro bars
  induction bars with
  | nil => intro cursor; simp [animateBars]
  | cons bar rest ih => intro cursor; simp [animateBars, ih]

theorem animateBars_getElem (rng : Nat → Rand) :
    ∀ (bars : List Bar) (cursor i : Nat), i < bars.length →
      (animateBars rng cursor bars).1[i]? =
        some { height := CssHeight.percent (barHeight (rng (cursor + 2 * i)))
               opacity := some (barOpacity (rng (cursor + 2 * i + 1))) } := by
  intro bars
  induction bars with
  | nil => intro cursor i hi; simp at hi
  | cons bar rest ih =>
    intro cursor i hi
    cases i with
    | zero => simp [animateBars, animateBar]
    | succ i =>
      simp only [List.length_cons, Nat.add_lt_add_iff_right] at hi
      simp only [animateBars, List.getElem?_cons_succ]
      rw [ih (cursor + 2) i hi]
      have e1 : cursor + 2 + 2 * i = cursor + 2 * (i + 1) := by ring
      rw [e1]

theorem visualizerTicks_succ (rng : Nat → Rand) :
    ∀ (n cursor : Nat) (bars : List Bar),
      visualizerTicks rng (n + 1) cursor bars =
        animateBars rng (visualizerTicks rng n cursor bars).2
          (visualizerTicks rng n cursor bars).1 := by
  intro n
  induction n with
  | zero => intro cursor bars; simp [visualizerTicks]
  | succ n ih =>
    intro cursor bars
    rw [visualizerTicks, ih]
    simp [visualizerTicks]

theorem visualizerTicks_length (rng : Nat → Rand) :
    ∀ (n cursor : Nat) (bars : List Bar),
      (visualizerTicks rng n cursor bars).1.length = bars.length := by
  intro n
  induction n with
  | zero => intro cursor bars; simp [visualizerTicks]
  | succ n ih =>
    intro cursor bars
    rw [visualizerTicks_succ, animateBars_length, ih]

theorem visualizerTicks_cursor (rng : Nat → Rand) :
    ∀ (n cursor : Nat) (bars : List Bar),
      (visualizerTicks rng n cursor bars).2 = cursor + 2 * bars.length * n := by
  intro n
  induction n with
  | zero => intro cursor bars; simp [visualizerTicks]
  | succ n ih =>
    intro cursor bars
    rw [visualizerTicks_succ, animateBars_cursor, ih, visualizerTicks_length]
    ring

/-- C2, as the code has it: a visualizer tick gives each bar, from its own two
draws `r1` and `r2` (doubles in `[0, 1)`), the height `floor(r1 * 90) + 10`
percent with the product rounded to a double, an integer with
`10 ≤ height < 100` that is the exact `floor(r1 * 90) + 10` or one more, and
the opacity `r2 * 0.5 + 0.5` computed in doubles, with `0.5 ≤ opacity ≤ 1`.
After any number of ticks (at least one) the bar at position `i` holds the
values computed from the two draws the latest tick made for it, and the number
of bars is unchanged. -/
theorem visualizer_tick_ranges (rng : Nat → Rand) :
    (∀ (r1 r2 : Rand) (bar : Bar),
      (animateBar r1 r2 bar).height =
        CssHeight.percent (Int.floor (roundDouble (r1.val * 90)) + 10) ∧
      10 ≤ Int.floor (roundDouble (r1.val * 90)) + 10 ∧
      Int.floor (roundDouble (r1.val * 90)) + 10 < 100 ∧
      Int.floor (r1.val * 90) + 10 ≤ Int.floor (roundDouble (r1.val * 90)) + 10 ∧
      Int.floor (roundDouble (r1.val * 90)) + 10 ≤ Int.floor (r1.val * 90) + 11 ∧
      (animateBar r1 r2 bar).opacity =
        some (roundDouble (roundDouble (r2.val * (1 / 2)) + 1 / 2)) ∧
      1 / 2 ≤ roundDouble (roundDouble (r2.val * (1 / 2)) + 1 / 2) ∧
      roundDouble (roundDouble (r2.val * (1 / 2)) + 1 / 2) ≤ 1) ∧
    (∀ (n cursor : Nat) (bars : List Bar),
      (visualizerTicks rng (n + 1) cursor bars).1.length = bars.length ∧
      ∀ i : Nat, i < bars.length →
        (visualizerTicks rng (n + 1) cursor bars).1[i]? =
          some { height := CssHeight.percent (Int.floor (roundDouble
                   ((rng (cursor + 2 * bars.length * n + 2 * i)).val * 90)) + 10)
                 opacity := some (roundDouble (roundDouble
                   ((rng (cursor + 2 * bars.length * n + 2 * i + 1)).val * (1 / 2)) + 1 / 2)) }) := by
  constructor
  · intro r1 r2 bar
    have hh := barHeight_bounds r1
    have ho := barOpacity_bounds r2
    unfold barHeight at hh
    unfold barOpacity at ho
    exact ⟨rfl, hh.1, hh.2.1, hh.2.2.1, hh.2.2.2, rfl, ho.1, ho.2⟩
  · intro n cursor bars
    refine ⟨visualizerTicks_length rng (n + 1) cursor bars, ?_⟩
    intro i hi
    rw [visualizerTicks_succ, animateBars_getElem rng _ _ i
      (by rw [visualizerTicks_length]; exact hi), visualizerTicks_cursor]
    rfl

/-- C2 fails as stated: at the draw `1 - 2 ^ (-53)` the sum `r2 * 0.5 + 0.5`
rounds to exactly 1, so the opacity is not below 1; and at the draw
`850679929614427 / 2 ^ 52` the product with 90 rounds up to 17, so the height
is 27 while `floor(r1 * 90) + 10` over exact rationals is 26. -/
theorem visualizer_rounding_breaks_bounds :
    (animateBar roundingDraw topDraw newBar).opacity = some 1 ∧
    ¬ (barOpacity topDraw < 1) ∧
    (animateBar roundingDraw topDraw newBar).height = CssHeight.percent 27 ∧
    Int.floor (roundingDraw.val * 90) + 10 = 26 := by
  have ho := topDraw_opacity
  have hh := roundingDraw_height
  refine ⟨?_, ?_, ?_, hh.2⟩
  · simp [animateBar, ho]
  · rw [ho]; norm_num
  · simp [animateBar, hh.1]

/-! ## Clock -/

/-- C7, as the code has it: with a `#clock` element the tick writes the
formatted time into it and does not throw; without one (`getElementById`
returned `null`) the tick throws a `TypeError` and writes nothing. -/
theorem clockTick_present_or_throws (timeText : String) :
    (∀ old : String, clockTick (some old) timeText = Except.ok (some timeText)) ∧
    clockTick none timeText = Except.error JsError.typeError := by
  exact ⟨fun _ => rfl, rfl⟩

/-- C7 fails as stated: without a `#clock` element the tick at 13:05:09 throws
a `TypeError` instead of completing as a no-op. -/
theorem clockTick_absent_throws :
    clockTick none "13:05:09" = Except.error JsError.typeError ∧
    clockTick none "13:05:09" ≠ Except.ok none := by
  constructor
  · rfl
  · intro h; cases h

/-! ## Voice controller: single handlers -/

theorem mem_classAdd (classes : List String) (token x : String) :
    x ∈ classAdd classes token ↔ x ∈ classes ∨ x = token := by
  unfold classAdd
  split
  · constructor
    · intro h; exact Or.inl h
    · rintro (h | h)
      · exact h
      · subst h; assumption
  · simp

theorem mem_classRemove (classes tokens : List String) (x : String) :
    x ∈ classRemove classes tokens ↔ x ∈ classes ∧ x ∉ tokens := by
  simp [classRemove]

theorem classRemove_idem (classes tokens : List String) :
    classRemove (classRemove classes tokens) tokens = classRemove classes tokens := by
  simp [classRemove, List.filter_filter]

theorem classRemove_of_not_mem (classes tokens : List String)
    (h : ∀ x ∈ tokens, x ∉ classes) : classRemove classes tokens = classes := by
  unfold classRemove
  rw [List.filter_eq_self]
  intro c hc
  simp only [Bool.not_eq_true', List.contains_eq_any_beq, List.any_eq_false, beq_iff_eq]
  intro x hx hxc
  exact h x hx (hxc ▸ hc)

theorem listeningFlag_iff (s : Session) :
    s.listeningFlag = true ↔ "listening" ∈ s.coreClasses := by
  simp [Session.listeningFlag]

theorem processingFlag_iff (s : Session) :
    s.processingFlag = true ↔ "processing" ∈ s.coreClasses := by
  simp [Session.processingFlag]

theorem listeningFlag_false_iff (s : Session) :
    s.listeningFlag = false ↔ "listening" ∉ s.coreClasses := by
  rw [← listeningFlag_iff]; simp

theorem processingFlag_false_iff (s : Session) :
    s.processingFlag = false ↔ "processing" ∉ s.coreClasses := by
  rw [← processingFlag_iff]; simp

theorem stopListening_flags (s : Session) :
    (stopListening s).isListening = false ∧ (stopListening s).listeningFlag = false ∧
    (stopListening s).processingFlag = false := by
  refine ⟨rfl, ?_, ?_⟩
  · rw [listeningFlag_false_iff]; simp [stopListening, mem_classRemove]
  · rw [processingFlag_false_iff]; simp [stopListening, mem_classRemove]

theorem state_idle_of_flags (s : Session) (h1 : s.listeningFlag = false)
    (h2 : s.processingFlag = false) : s.state = some VoiceState.idle := by
  simp [Session.state, h1, h2]

theorem processVoiceInput_flags (s : Session) (transcript : String) :
    (processVoiceInput s transcript).listeningFlag = false ∧
    (processVoiceInput s transcript).processingFlag = true := by
  constructor
  · rw [listeningFlag_false_iff]
    simp [processVoiceInput, log, mem_classAdd, mem_classRemove]
  · rw [processingFlag_iff]
    simp [processVoiceInput, log, mem_classAdd]

theorem string_append_left_cancel (a b c : String) (h : a ++ b = a ++ c) : b = c := by
  have h2 : (a ++ b).data = (a ++ c).data := by rw [h]
  simp only [String.data_append] at h2
  exact String.ext (List.append_cancel_left h2)

/-- C3. With no recognizer object, `isListening` false and neither
`SpeechRecognition` nor `webkitSpeechRecognition` on the platform,
`toggleVoiceInput()` throws nothing, leaves `recognition` null, `isListening`
false, the indicator classes and the awaited requests as they were, and writes
exactly one entry reporting the missing capability, the console error
"Speech Recognition not supported in this browser".  The caught `TypeError` of
`recognition.start()` adds the console error "Failed to start recognition:" and
the message-log entry "Failed to start microphone". -/
theorem toggle_without_capability (s : Session) (hrec : s.recognition = none)
    (hidle : s.isListening = false) (h1 : s.speechRecognition = false)
    (h2 : s.webkitSpeechRecognition = false) :
    (toggleVoiceInput s).2 = none ∧
    (toggleVoiceInput s).1.isListening = false ∧
    (toggleVoiceInput s).1.recognition = none ∧
    (toggleVoiceInput s).1.coreClasses = s.coreClasses ∧
    (toggleVoiceInput s).1.pending = s.pending ∧
    (toggleVoiceInput s).1.console = s.console ++
      [{ level := Level.error, text := unsupportedText, detail := none },
       { level := Level.error, text := "Failed to start recognition:",
         detail := some "TypeError" }] ∧
    (toggleVoiceInput s).1.messages = s.messages ++ [errorLabel ++ "Failed to start microphone"] ∧
    (((toggleVoiceInput s).1.console.drop s.console.length).filter
      isCapabilityUnavailable).length = 1 := by
  have hout : toggleVoiceInput s =
      (log (consoleError (consoleError s unsupportedText none) "Failed to start recognition:"
        (some "TypeError")) (errorLabel ++ "Failed to start microphone"), none) := by
    simp [toggleVoiceInput, initVoiceRecognition, hrec, hidle, h1, h2, consoleError,
      recognitionStart, JsError.name]
  rw [hout]
  simp [log, consoleError, hidle, hrec, isCapabilityUnavailable]
  decide

/-- Witness for C3: a page in a browser without speech recognition. -/
theorem toggle_without_capability_witness :
    barePage.recognition = none ∧ barePage.isListening = false ∧
    (toggleVoiceInput barePage).2 = none ∧
    (toggleVoiceInput barePage).1.isListening = false ∧
    (toggleVoiceInput barePage).1.recognition = none ∧
    (toggleVoiceInput barePage).1.messages = [errorLabel ++ "Failed to start microphone"] := by
  have h := toggle_without_capability barePage rfl rfl rfl rfl
  exact ⟨rfl, rfl, h.1, h.2.1, h.2.2.1, h.2.2.2.2.2.2.1⟩

/-- C8. `stopListening` is idempotent on every session, and from the idle state
(`isListening` false, neither `listening` nor `processing` on the indicator)
two calls in a row give back the starting session: no entry is added to the
message log or the console and both flags stay cleared. -/
theorem stopListening_twice (s : Session) (hidle : s.Idle) :
    (∀ t : Session, stopListening (stopListening t) = stopListening t) ∧
    stopListening (stopListening s) = s ∧
    (stopListening (stopListening s)).messages = s.messages ∧
    (stopListening (stopListening s)).listeningFlag = false ∧
    (stopListening (stopListening s)).processingFlag = false := by
  have hidem : ∀ t : Session, stopListening (stopListening t) = stopListening t := by
    intro t
    simp [stopListening, classRemove_idem]
  obtain ⟨h0, h1, h2⟩ := hidle
  have hself : stopListening s = s := by
    have hc : classRemove s.coreClasses ["listening", "processing"] = s.coreClasses := by
      apply classRemove_of_not_mem
      intro x hx
      simp only [List.mem_cons, List.mem_singleton, List.not_mem_nil, or_false] at hx
      rcases hx with hx | hx
      · subst hx; exact (listeningFlag_false_iff s).mp h1
      · subst hx; exact (processingFlag_false_iff s).mp h2
    cases s
    simp only [stopListening] at hc ⊢
    simp_all
  refine ⟨hidem, ?_, ?_, ?_, ?_⟩
  · rw [hself, hself]
  · rw [hself, hself]
  · rw [hself, hself]; exact h1
  · rw [hself, hself]; exact h2

/-- Witness for C8: the freshly loaded page. -/
theorem stopListening_twice_witness :
    webkitPage.Idle ∧ stopListening (stopListening webkitPage) = webkitPage :=
  ⟨by decide, (stopListening_twice webkitPage (by decide)).2.1⟩

theorem isSome_of_phase_running (s : Session) (h : s.phase = Phase.running) :
    s.recognition.isSome = true := by
  unfold Session.phase at h
  cases hr : s.recognition with
  | none => rw [hr] at h; cases h
  | some r => rfl

theorem onerror_effect (s : Session) (code : String) :
    (onerror s code).isListening = false ∧ (onerror s code).listeningFlag = false ∧
    (onerror s code).processingFlag = false ∧
    (onerror s code).messages = s.messages ++ [errorEntry code] ∧
    (onerror s code).pending = s.pending :=
  ⟨rfl, (stopListening_flags _).2.1, (stopListening_flags _).2.2, rfl, rfl⟩

theorem errorEntry_ne_denied (code : String) (h1 : code ≠ "not-allowed")
    (h2 : code ≠ deniedText) : errorEntry code ≠ errorEntry "not-allowed" := by
  intro h
  simp only [errorEntry, h1, if_false, if_true] at h
  exact h2 (string_append_left_cancel _ _ _ h)

theorem errorCode_text_ne (code : SpeechRecognitionErrorCode)
    (h : code ≠ SpeechRecognitionErrorCode.notAllowed) :
    code.text ≠ "not-allowed" ∧ code.text ≠ deniedText := by
  cases code <;> first | exact absurd rfl h | decide

/-- C5. From the listening state a recognition error event with any code
returns the session to idle (`isListening` false, both flags cleared) and
appends exactly one entry to the message log, labelled `[ERROR]`.  For
`not-allowed` the entry is the permission-denied message; every other error
code of the platform gets the label followed by the code itself, which is a
different text. -/
theorem recognition_error_to_idle (s : Session) (code : SpeechRecognitionErrorCode)
    (h : s.Listening) :
    (step s (Event.recError code.text)).isListening = false ∧
    (step s (Event.recError code.text)).listeningFlag = false ∧
    (step s (Event.recError code.text)).processingFlag = false ∧
    (step s (Event.recError code.text)).state = some VoiceState.idle ∧
    (step s (Event.recError code.text)).messages = s.messages ++ [errorEntry code.text] ∧
    (∃ body : String, errorEntry code.text = errorLabel ++ body) ∧
    errorEntry SpeechRecognitionErrorCode.notAllowed.text =
      "<b style=\"color: #ff3300\">[ERROR]:</b> Microphone access denied. Please grant permission." ∧
    (∀ other : SpeechRecognitionErrorCode, other ≠ SpeechRecognitionErrorCode.notAllowed →
      errorEntry other.text = errorLabel ++ other.text ∧
      errorEntry other.text ≠ errorEntry SpeechRecognitionErrorCode.notAllowed.text) := by
  have hs : step s (Event.recError code.text) = onerror s code.text := by
    simp [step, isSome_of_phase_running s h.1]
  rw [hs]
  obtain ⟨h1, h2, h3, h4, _⟩ := onerror_effect s code.text
  refine ⟨h1, h2, h3, state_idle_of_flags _ h2 h3, h4, ?_, ?_, ?_⟩
  · unfold errorEntry
    split
    · exact ⟨_, rfl⟩
    · exact ⟨_, rfl⟩
  · decide
  · intro other ho
    obtain ⟨ha, hb⟩ := errorCode_text_ne other ho
    refine ⟨?_, errorEntry_ne_denied other.text ha hb⟩
    simp [errorEntry, ha]

/-- Witness for C5: the error code `network` in the listening session. -/
theorem recognition_error_to_idle_witness :
    listeningSession.Listening ∧
    (step listeningSession (Event.recError "network")).isListening = false ∧
    (step listeningSession (Event.recError "network")).messages =
      listeningSession.messages ++ ["<b style=\"color: #ff3300\">[ERROR]:</b> network"] :=
  ⟨by decide,
    (recognition_error_to_idle listeningSession SpeechRecognitionErrorCode.network
      (by decide)).1,
    (recognition_error_to_idle listeningSession SpeechRecognitionErrorCode.network
      (by decide)).2.2.2.2.1⟩

/-- C4. From the listening state a result event carrying `t` moves the
indicator to processing (`listening` removed, `processing` added, `isListening`
still set) and dispatches a request whose body is `transcript: t`; when that
request is answered with status `success` and response `r`, the session is
idle (`isListening` false, both flags cleared), the request is no longer
awaited, and the message log has gained the entry `[KALPANA]:` followed by
`r`. -/
theorem result_then_success (s : Session) (t r : String) (confidence : ℚ)
    (message : Option String) (h : s.Listening) :
    (step s (Event.recResult t confidence)).state = some VoiceState.processing ∧
    (step s (Event.recResult t confidence)).listeningFlag = false ∧
    (step s (Event.recResult t confidence)).processingFlag = true ∧
    (step s (Event.recResult t confidence)).isListening = true ∧
    (step s (Event.recResult t confidence)).pending = s.pending ++ [{ transcript := t }] ∧
    (step (step s (Event.recResult t confidence))
      (Event.response s.pending.length (Reply.data "success" (some r) message))).isListening
        = false ∧
    (step (step s (Event.recResult t confidence))
      (Event.response s.pending.length (Reply.data "success" (some r) message))).state
        = some VoiceState.idle ∧
    (step (step s (Event.recResult t confidence))
      (Event.response s.pending.length (Reply.data "success" (some r) message))).pending
        = s.pending ∧
    (step (step s (Event.recResult t confidence))
      (Event.response s.pending.length (Reply.data "success" (some r) message))).messages
        = (step s (Event.recResult t confidence)).messages ++ [kalpanaLabel ++ r] := by
  have hs : step s (Event.recResult t confidence) = onresult s t confidence := by
    simp [step, isSome_of_phase_running s h.1]
  have hf := processVoiceInput_flags
    (log (consoleLog s ("Transcript: " ++ t ++ " (" ++
      toString (mathRound (roundDouble (confidence * 100))) ++ "% confidence)"))
      ("<b style=\"color: #ffaa00\">[YOU]:</b> " ++ t)) t
  have hpend : (onresult s t confidence).pending = s.pending ++ [{ transcript := t }] := rfl
  have hlisten : (onresult s t confidence).isListening = true := h.2.1
  have hs2 : step (onresult s t confidence)
      (Event.response s.pending.length (Reply.data "success" (some r) message)) =
      processVoiceInputSettle
        { onresult s t confidence with pending := s.pending }
        (Reply.data "success" (some r) message) := by
    simp [step, hpend, List.eraseIdx_append_of_length_le]
  rw [hs, hs2]
  refine ⟨?_, hf.1, hf.2, hlisten, hpend, rfl, ?_, rfl, rfl⟩
  · have h1 : (onresult s t confidence).listeningFlag = false := hf.1
    have h2 : (onresult s t confidence).processingFlag = true := hf.2
    simp [Session.state, h1, h2]
  · exact state_idle_of_flags _ (stopListening_flags _).2.1 (stopListening_flags _).2.2

/-- Witness for C4: the transcript "turn on lights" answered by "Lights on". -/
theorem result_then_success_witness :
    listeningSession.Listening ∧
    (step listeningSession (Event.recResult "turn on lights" confidence90)).state
      = some VoiceState.processing ∧
    (step (step listeningSession (Event.recResult "turn on lights" confidence90))
      (Event.response listeningSession.pending.length
        (Reply.data "success" (some "Lights on") none))).messages
      = (step listeningSession (Event.recResult "turn on lights" confidence90)).messages ++
        [kalpanaLabel ++ "Lights on"] :=
  ⟨by decide,
    (result_then_success listeningSession "turn on lights" "Lights on" confidence90 none
      (by decide)).1,
    (result_then_success listeningSession "turn on lights" "Lights on" confidence90 none
      (by decide)).2.2.2.2.2.2.2.2⟩

/-! ## Voice controller: interleavings -/

theorem toggle_listening (s : Session) (r : Recognizer) (hr : s.recognition = some r)
    (hl : s.isListening = true) :
    (toggleVoiceInput s).1 =
      { s with recognition := some { r with stopRequested := r.phase != Phase.inactive } } ∧
    (toggleVoiceInput s).2 = none := by
  simp [toggleVoiceInput, hr, hl, recognitionStop]

theorem init_frame (s : Session) :
    (initVoiceRecognition s).pending = s.pending ∧
    (initVoiceRecognition s).coreClasses = s.coreClasses ∧
    (initVoiceRecognition s).isListening = s.isListening := by
  unfold initVoiceRecognition
  split
  · exact ⟨rfl, rfl, rfl⟩
  · exact ⟨rfl, rfl, rfl⟩

theorem toggle_frame (s : Session) :
    (toggleVoiceInput s).1.pending = s.pending ∧
    (toggleVoiceInput s).1.coreClasses = s.coreClasses ∧
    (toggleVoiceInput s).1.isListening = s.isListening := by
  obtain ⟨h1, h2, h3⟩ := init_frame s
  unfold toggleVoiceInput
  simp only
  split
  · split
    · split
      · exact ⟨h1, h2, h3⟩
      · exact ⟨h1, h2, h3⟩
    · split
      · exact ⟨h1, h2, h3⟩
      · exact ⟨h1, h2, h3⟩
  · split
    · split
      · exact ⟨rfl, rfl, rfl⟩
      · exact ⟨rfl, rfl, rfl⟩
    · split
      · exact ⟨rfl, rfl, rfl⟩
      · exact ⟨rfl, rfl, rfl⟩

theorem toggle_pending (s : Session) : (toggleVoiceInput s).1.pending = s.pending :=
  (toggle_frame s).1

theorem step_pending_kept (s : Session) (ev : Event)
    (hev : ∀ (k : Nat) (reply : Reply), ev ≠ Event.response k reply) :
    s.pending <+: (step s ev).pending := by
  cases ev with
  | toggle => simp only [step, toggle_pending]; exact List.prefix_refl _
  | recStart =>
    simp only [step]
    split
    · exact List.prefix_refl _
    · exact List.prefix_refl _
  | recResult t c =>
    simp only [step]
    split
    · exact List.prefix_append _ _
    · exact List.prefix_refl _
  | recError code =>
    simp only [step]
    split
    · exact List.prefix_refl _
    · exact List.prefix_refl _
  | recEnd =>
    simp only [step]
    split
    · exact List.prefix_refl _
    · exact List.prefix_refl _
  | response k reply => exact absurd rfl (hev k reply)

theorem settle_flags (s : Session) (reply : Reply) :
    (processVoiceInputSettle s reply).isListening = false ∧
    (processVoiceInputSettle s reply).listeningFlag = false ∧
    (processVoiceInputSettle s reply).processingFlag = false :=
  stopListening_flags _

theorem settle_pending (s : Session) (reply : Reply) :
    (processVoiceInputSettle s reply).pending = s.pending := by
  unfold processVoiceInputSettle
  cases reply with
  | failure error => rfl
  | data status response message =>
    simp only
    split <;> rfl

theorem toggle_running_not_listening (s : Session) (hp : s.phase = Phase.running)
    (hl : s.isListening = false) :
    toggleVoiceInput s =
      (log (consoleError s "Failed to start recognition:" (some "InvalidStateError"))
        (errorLabel ++ "Failed to start microphone"), none) := by
  obtain ⟨r, hr⟩ := Option.isSome_iff_exists.mp (isSome_of_phase_running s hp)
  have hrp : r.phase = Phase.running := by simpa [Session.phase, hr] using hp
  simp [toggleVoiceInput, hr, hl, recognitionStart, hrp, JsError.name]

theorem toggle_running_listening (s : Session) (hp : s.phase = Phase.running)
    (hl : s.isListening = true) :
    ∃ r : Recognizer, s.recognition = some r ∧
      toggleVoiceInput s = ({ s with recognition := some { r with stopRequested := true } }, none) := by
  obtain ⟨r, hr⟩ := Option.isSome_iff_exists.mp (isSome_of_phase_running s hp)
  have hrp : r.phase = Phase.running := by simpa [Session.phase, hr] using hp
  refine ⟨r, hr, ?_⟩
  simp [toggleVoiceInput, hr, hl, recognitionStop, hrp]

/-- C6, as the code has it: while the session is processing with a request in
flight, a `toggleVoiceInput` call does not return it to idle: it throws
nothing and changes neither `isListening` nor the indicator, which stays on
`processing`, nor the awaited requests.  With `isListening` set the call only
asks the recognizer to stop; with `isListening` cleared (by the answer to an
earlier request) its `start()` fails on the running recognizer and it logs
"Failed to start microphone".  No event other than the answer to a request
removes a request from the awaited ones.  But a recognition end or error event
arriving during the request does return the session to idle (`isListening`
false, `processing` cleared) while the request is still awaited, and the later
answer runs `stopListening` once more. -/
theorem processing_until_end_or_answer (s : Session) (h : s.Processing) :
    ((toggleVoiceInput s).2 = none ∧
      (step s Event.toggle).isListening = s.isListening ∧
      (step s Event.toggle).coreClasses = s.coreClasses ∧
      (step s Event.toggle).state = some VoiceState.processing ∧
      (step s Event.toggle).pending = s.pending ∧
      (s.isListening = true → ∃ r : Recognizer, s.recognition = some r ∧
        step s Event.toggle = { s with recognition := some { r with stopRequested := true } }) ∧
      (s.isListening = false → step s Event.toggle =
        log (consoleError s "Failed to start recognition:" (some "InvalidStateError"))
          "<b style=\"color: #ff3300\">[ERROR]:</b> Failed to start microphone")) ∧
    (∀ ev : Event, (∀ (k : Nat) (reply : Reply), ev ≠ Event.response k reply) →
      s.pending <+: (step s ev).pending) ∧
    ((step s Event.recEnd).isListening = false ∧
      (step s Event.recEnd).state = some VoiceState.idle ∧
      (step s Event.recEnd).pending = s.pending ∧ (step s Event.recEnd).pending ≠ []) ∧
    (∀ code : String, (step s (Event.recError code)).isListening = false ∧
      (step s (Event.recError code)).state = some VoiceState.idle ∧
      (step s (Event.recError code)).pending = s.pending) ∧
    (∀ (k : Nat) (reply : Reply), k < s.pending.length →
      (step s (Event.response k reply)).isListening = false ∧
      (step s (Event.response k reply)).state = some VoiceState.idle ∧
      (step s (Event.response k reply)).pending = s.pending.eraseIdx k) := by
  obtain ⟨hphase, hstate, hpend⟩ := h
  have hsome := isSome_of_phase_running s hphase
  refine ⟨?_, ?_, ?_, ?_, ?_⟩
  · obtain ⟨hf1, hf2, hf3⟩ := toggle_frame s
    have hst : (step s Event.toggle).state = some VoiceState.processing := by
      have : (step s Event.toggle).state = s.state := by
        simp [step, Session.state, Session.listeningFlag, Session.processingFlag, hf2]
      rw [this]; exact hstate
    refine ⟨?_, hf3, hf2, hst, hf1, ?_, ?_⟩
    · cases hl : s.isListening
      · rw [toggle_running_not_listening s hphase hl]
      · obtain ⟨r, _, ht⟩ := toggle_running_listening s hphase hl
        rw [ht]
    · intro hl
      obtain ⟨r, hr, ht⟩ := toggle_running_listening s hphase hl
      exact ⟨r, hr, by simp only [step]; rw [ht]⟩
    · intro hl
      simp only [step]
      rw [toggle_running_not_listening s hphase hl]
      rfl
  · intro ev hev
    exact step_pending_kept s ev hev
  · have hs : step s Event.recEnd = onend (s.setPhase Phase.inactive) := by
      simp [step, hsome]
    rw [hs]
    have hf := stopListening_flags (consoleLog (s.setPhase Phase.inactive) "Voice recognition ended")
    exact ⟨hf.1, state_idle_of_flags _ hf.2.1 hf.2.2, rfl, hpend⟩
  · intro code
    have hs : step s (Event.recError code) = onerror s code := by
      simp [step, hsome]
    rw [hs]
    obtain ⟨h1, h2, h3, _, h5⟩ := onerror_effect s code
    exact ⟨h1, state_idle_of_flags _ h2 h3, h5⟩
  · intro k reply hk
    have hs : step s (Event.response k reply) =
        processVoiceInputSettle { s with pending := s.pending.eraseIdx k } reply := by
      simp [step, hk]
    rw [hs]
    obtain ⟨h1, h2, h3⟩ := settle_flags { s with pending := s.pending.eraseIdx k } reply
    exact ⟨h1, state_idle_of_flags _ h2 h3, settle_pending _ reply⟩

/-- Witness for C6 as amended: the session processing "turn on lights", where
`isListening` is set, and the session processing "second", where the answer to
the first request has cleared it. -/
theorem processing_until_end_or_answer_witness :
    (processingSession.Processing ∧ processingSession.isListening = true ∧
      (step processingSession Event.toggle).isListening = processingSession.isListening ∧
      (step processingSession Event.toggle).state = some VoiceState.processing ∧
      (step processingSession Event.recEnd).state = some VoiceState.idle) ∧
    (staleProcessingSession.Processing ∧ staleProcessingSession.isListening = false ∧
      (step staleProcessingSession Event.toggle).isListening
        = staleProcessingSession.isListening ∧
      (step staleProcessingSession Event.toggle).state = some VoiceState.processing ∧
      (step staleProcessingSession Event.toggle).pending = staleProcessingSession.pending) :=
  ⟨⟨by decide, by decide,
      (processing_until_end_or_answer processingSession (by decide)).1.2.1,
      (processing_until_end_or_answer processingSession (by decide)).1.2.2.2.1,
      (processing_until_end_or_answer processingSession (by decide)).2.2.1.2.1⟩,
    ⟨by decide, by decide,
      (processing_until_end_or_answer staleProcessingSession (by decide)).1.2.1,
      (processing_until_end_or_answer staleProcessingSession (by decide)).1.2.2.2.1,
      (processing_until_end_or_answer staleProcessingSession (by decide)).1.2.2.2.2.1⟩⟩

/-- C6 fails as stated: after toggle, `start` and the result "turn on lights"
the session is processing with its request in flight and `isListening` set;
the recognizer's `end` event then clears `isListening` and the `processing`
flag although the request has neither resolved nor failed. -/
theorem end_event_leaves_processing :
    admissible webkitPage [Event.toggle, Event.recStart,
      Event.recResult "turn on lights" confidence90, Event.recEnd] = true ∧
    processingSession.Processing ∧
    processingSession.isListening = true ∧
    processingSession.pending = [{ transcript := "turn on lights" }] ∧
    (step processingSession Event.recEnd).pending = [{ transcript := "turn on lights" }] ∧
    (step processingSession Event.recEnd).isListening = false ∧
    (step processingSession Event.recEnd).processingFlag = false ∧
    (step processingSession Event.recEnd).state = some VoiceState.idle := by
  decide

theorem reachable_run (s0 : Session) :
    ∀ (evs : List Event) (s : Session), Reachable s0 s → admissible s evs = true →
      Reachable s0 (run s evs) := by
  intro evs
  induction evs with
  | nil => intro s hs _; exact hs
  | cons ev rest ih =>
    intro s hs hadm
    simp only [admissible, Bool.and_eq_true] at hadm
    exact ih (step s ev) (Reachable.next s ev hs hadm.1) hadm.2

theorem toggle_phase_running (s : Session) (h : s.phase = Phase.running) :
    (toggleVoiceInput s).1.phase = Phase.running := by
  obtain ⟨r, hr⟩ := Option.isSome_iff_exists.mp (isSome_of_phase_running s h)
  have hp : r.phase = Phase.running := by simpa [Session.phase, hr] using h
  by_cases hl : s.isListening = true
  · rw [(toggle_listening s r hr hl).1]
    simpa [Session.phase] using hp
  · have hl2 : s.isListening = false := by simpa using hl
    have : (toggleVoiceInput s).1 =
        log (consoleError s "Failed to start recognition:" (some "InvalidStateError"))
          (errorLabel ++ "Failed to start microphone") := by
      simp [toggleVoiceInput, hr, hl2, recognitionStart, hp, JsError.name]
    rw [this]
    simpa [Session.phase, log, consoleError, hr] using hp

theorem onstart_processingFlag (s : Session) :
    (onstart s).processingFlag = s.processingFlag := by
  have h : (onstart s).processingFlag = true ↔ s.processingFlag = true := by
    rw [processingFlag_iff, processingFlag_iff]
    simp [onstart, log, consoleLog, mem_classAdd]
  cases h1 : (onstart s).processingFlag <;> cases h2 : s.processingFlag <;> simp_all

theorem processingFlag_set_only_by_result (s : Session) (ev : Event)
    (h0 : s.processingFlag = false) (h1 : (step s ev).processingFlag = true) :
    ∃ (t : String) (c : ℚ), ev = Event.recResult t c := by
  cases ev with
  | toggle =>
    have : (step s Event.toggle).processingFlag = s.processingFlag := by
      simp [step, Session.processingFlag, (toggle_frame s).2.1]
    rw [this, h0] at h1; cases h1
  | recStart =>
    simp only [step] at h1
    split at h1
    · rw [onstart_processingFlag] at h1
      have : (s.setPhase Phase.running).processingFlag = s.processingFlag := rfl
      rw [this, h0] at h1; cases h1
    · rw [h0] at h1; cases h1
  | recResult t c => exact ⟨t, c, rfl⟩
  | recError code =>
    simp only [step] at h1
    split at h1
    · rw [(onerror_effect s code).2.2.1] at h1; cases h1
    · rw [h0] at h1; cases h1
  | recEnd =>
    simp only [step] at h1
    split at h1
    · rw [show (onend (s.setPhase Phase.inactive)).processingFlag = false from
        (stopListening_flags _).2.2] at h1
      cases h1
    · rw [h0] at h1; cases h1
  | response k reply =>
    simp only [step] at h1
    split at h1
    · rw [(settle_flags _ reply).2.2] at h1; cases h1
    · rw [h0] at h1; cases h1

theorem processingSound_step (s : Session) (ev : Event) (hinv : s.ProcessingSound)
    (hen : enabled s ev = true) : (step s ev).ProcessingSound := by
  intro hp
  by_cases h0 : s.processingFlag = true
  · obtain ⟨hrun, hnl⟩ := hinv h0
    have hsome := isSome_of_phase_running s hrun
    cases ev with
    | toggle =>
      refine ⟨toggle_phase_running s hrun, ?_⟩
      have : (step s Event.toggle).listeningFlag = s.listeningFlag := by
        simp [step, Session.listeningFlag, (toggle_frame s).2.1]
      rw [this]; exact hnl
    | recStart =>
      simp [enabled, hrun] at hen
    | recResult t c =>
      have hs : step s (Event.recResult t c) = onresult s t c := by simp [step, hsome]
      rw [hs]
      refine ⟨?_, (processVoiceInput_flags _ t).1⟩
      have : (onresult s t c).phase = s.phase := rfl
      rw [this]; exact hrun
    | recError code =>
      have hs : step s (Event.recError code) = onerror s code := by simp [step, hsome]
      rw [hs, (onerror_effect s code).2.2.1] at hp; cases hp
    | recEnd =>
      have hs : step s Event.recEnd = onend (s.setPhase Phase.inactive) := by
        simp [step, hsome]
      rw [hs, show (onend (s.setPhase Phase.inactive)).processingFlag = false from
        (stopListening_flags _).2.2] at hp
      cases hp
    | response k reply =>
      simp only [step] at hp
      split at hp
      · rw [(settle_flags _ reply).2.2] at hp; cases hp
      · have hk : k < s.pending.length := by simpa [enabled] using hen
        contradiction
  · have h0f : s.processingFlag = false := by simpa using h0
    obtain ⟨t, c, hev⟩ := processingFlag_set_only_by_result s ev h0f hp
    subst hev
    have hrun : s.phase = Phase.running := by simpa [enabled] using hen
    have hsome := isSome_of_phase_running s hrun
    have hs : step s (Event.recResult t c) = onresult s t c := by simp [step, hsome]
    rw [hs]
    refine ⟨?_, (processVoiceInput_flags _ t).1⟩
    have : (onresult s t c).phase = s.phase := rfl
    rw [this]; exact hrun

theorem processingSound_of_reachable (s0 s : Session) (h0 : s0.ProcessingSound)
    (h : Reachable s0 s) : s.ProcessingSound := by
  induction h with
  | start => exact h0
  | next s ev _ hen ih => exact processingSound_step s ev ih hen

/-- The handlers alone do not keep the flags apart: a second `start` event
delivered out of platform order, while the indicator shows `processing`, sets
both flags. -/
theorem unordered_start_sets_both_flags :
    admissible processingSession [Event.recStart] = false ∧
    (step processingSession Event.recStart).listeningFlag = true ∧
    (step processingSession Event.recStart).processingFlag = true := by
  decide

/-- C10, as the code has it: in every state reachable from the initial state
of a page whose indicator does not carry `processing` (the initial idle state
in particular) by toggle calls, recognizer events delivered in platform order and
answers to awaited requests, the indicator never carries `listening` and
`processing` at once, so it shows exactly one of idle, listening, processing;
and `processing` is set only by a result event, delivered while the recognizer
is running, whether or not `isListening` and the `listening` flag are still
set at that moment. -/
theorem indicator_exclusive (speechRecognition webkitSpeechRecognition : Bool)
    (classes : List String) (h2 : "processing" ∉ classes) (s : Session)
    (hreach : Reachable (initialSession speechRecognition webkitSpeechRecognition classes) s) :
    ¬ (s.listeningFlag = true ∧ s.processingFlag = true) ∧
    (s.state = some VoiceState.idle ∨ s.state = some VoiceState.listening ∨
      s.state = some VoiceState.processing) ∧
    (∀ ev : Event, enabled s ev = true → s.processingFlag = false →
      (step s ev).processingFlag = true →
      ∃ (t : String) (c : ℚ), ev = Event.recResult t c ∧ s.phase = Phase.running) := by
  have hinit : (initialSession speechRecognition webkitSpeechRecognition
      classes).ProcessingSound := by
    intro hp
    rw [processingFlag_iff] at hp
    exact absurd hp h2
  have hinv := processingSound_of_reachable _ s hinit hreach
  have hexcl : ¬ (s.listeningFlag = true ∧ s.processingFlag = true) := by
    rintro ⟨ha, hb⟩
    rw [(hinv hb).2] at ha
    cases ha
  refine ⟨hexcl, ?_, ?_⟩
  · unfold Session.state
    cases ha : s.listeningFlag <;> cases hb : s.processingFlag <;> simp
    exact hexcl ⟨ha, hb⟩
  · intro ev hen hp0 hp1
    obtain ⟨t, c, hev⟩ := processingFlag_set_only_by_result s ev hp0 hp1
    subst hev
    exact ⟨t, c, rfl, by simpa [enabled] using hen⟩

/-- Witness for C10 as amended: the session processing "turn on lights". -/
theorem indicator_exclusive_witness :
    "processing" ∉ ["core"] ∧
    Reachable (initialSession false true ["core"]) processingSession ∧
    ¬ (processingSession.listeningFlag = true ∧ processingSession.processingFlag = true) :=
  ⟨by decide,
    reachable_run webkitPage
      [Event.toggle, Event.recStart, Event.recResult "turn on lights" confidence90]
      webkitPage Reachable.start (by decide),
    (indicator_exclusive false true ["core"] (by decide) processingSession
      (reachable_run webkitPage
        [Event.toggle, Event.recStart, Event.recResult "turn on lights" confidence90]
        webkitPage Reachable.start (by decide))).1⟩

/-- C10 fails as stated: the answer to the first request arrives while a second
recognition session is running and runs `stopListening`; the result event of
the second session is then received with `isListening` false and no
`listening` flag, and still sets `processing`. -/
theorem result_sets_processing_while_not_listening :
    admissible webkitPage (staleAnswerEvents ++ [Event.recResult "second" confidence90]) = true ∧
    (run webkitPage staleAnswerEvents).phase = Phase.running ∧
    (run webkitPage staleAnswerEvents).isListening = false ∧
    (run webkitPage staleAnswerEvents).listeningFlag = false ∧
    (run webkitPage staleAnswerEvents).state = some VoiceState.idle ∧
    ¬ (run webkitPage staleAnswerEvents).Listening ∧
    (step (run webkitPage staleAnswerEvents)
      (Event.recResult "second" confidence90)).processingFlag = true := by
  decide

end Kalpana
